import Mathlib

/-!
Shallow embedding of the notion toolchain-manager core: the Node
distribution fetch/cache/install pipeline (`distro/node.rs`), the session
precedence logic (`session.rs`) and the manifest toolchain section
(`manifest/mod.rs`).  The filesystem and the network are modelled as an
explicit `World` state together with a trace of observable effects; the
outcome of each fallible syscall (download, unpack, rename) is fixed up
front by oracle booleans in the `World`.
-/

set_option autoImplicit false

/-- A semantic version (`semver::Version`).  Pre-release and build metadata
are not touched by the code under study and are omitted from the model. -/
structure Version where
  major : Nat
  minor : Nat
  patch : Nat
deriving DecidableEq, Repr

/-- Canonical rendering of a version, as the semver `Display` impl produces
for a plain `major.minor.patch` version. -/
def Version.verString (v : Version) : String :=
  toString v.major ++ "." ++ toString v.minor ++ "." ++ toString v.patch

/-- Split a character list on the dot separator. -/
def splitOnDot : List Char → List (List Char)
  | [] => [[]]
  | c :: cs =>
    if c = '.' then [] :: splitOnDot cs
    else
      match splitOnDot cs with
      | [] => [[c]]
      | g :: gs => (c :: g) :: gs

/-- Read a nonempty all-digit character list as a natural number. -/
def readNatAux : List Char → Nat → Option Nat
  | [], acc => some acc
  | c :: cs, acc =>
    if c.isDigit then readNatAux cs (acc * 10 + (c.toNat - 48)) else none

/-- Read a numeric version component. -/
def readNat : List Char → Option Nat
  | [] => none
  | c :: cs => readNatAux (c :: cs) 0

/-- Parse of `semver::Version::parse`, restricted to the plain
`major.minor.patch` form (the only form the properties below exercise). -/
def Version.parse (s : String) : Option Version :=
  match splitOnDot s.data with
  | [a, b, c] =>
    match readNat a, readNat b, readNat c with
    | some x, some y, some z => some ⟨x, y, z⟩
    | _, _, _ => none
  | _ => none

/-- Observable filesystem and network actions performed by the pipeline. -/
inductive Effect
  | ensureDir
  | download (url : String)
  | openCache
  | unpack
  | rename
  | resolve
  | pinWrite
deriving DecidableEq, Repr

def Effect.isDownload : Effect → Bool
  | .download _ => true
  | _ => false

def Effect.isUnpack : Effect → Bool
  | .unpack => true
  | _ => false

/-- Number of network transfers in a trace. -/
def countDownloads : List Effect → Nat
  | [] => 0
  | e :: es => (if e.isDownload then 1 else 0) + countDownloads es

/-- Number of archive unpack operations in a trace. -/
def countUnpacks : List Effect → Nat
  | [] => 0
  | e :: es => (if e.isUnpack then 1 else 0) + countUnpacks es

/-- URLs requested over the network in a trace. -/
def downloadUrls : List Effect → List String
  | [] => []
  | .download u :: es => u :: downloadUrls es
  | _ :: es => downloadUrls es

/-- Typed failures surfaced through `Fallible`: the download error carries
the requested version (`DownloadError::for_version`); `unknownErr` stands
for the anonymous errors produced by `.unknown()`; `notInPackage` is
`NotInPackageError`; `panicked` marks an `unwrap`/`unimplemented!` abort. -/
inductive Err
  | downloadError (version : String)
  | unknownErr
  | notInPackage
  | panicked
deriving DecidableEq, Repr

/-- Modelled from the spec: `distro::Fetched` (distro/mod.rs is not under
src/); its constructors are taken from their uses in distro/node.rs and
`into_version` from its use in session.rs. -/
inductive Fetched
  | Already (v : Version)
  | Now (v : Version)
deriving DecidableEq, Repr

/-- Modelled from the spec: `Fetched::into_version`, the version carried by
either outcome. -/
def Fetched.into_version : Fetched → Version
  | .Already v => v
  | .Now v => v

/-- Decidable equality of `Except` results, used to evaluate the model on
concrete inputs. -/
instance instDecEqExcept {ε α : Type} [DecidableEq ε] [DecidableEq α] : DecidableEq (Except ε α)
  | .ok a, .ok b =>
    if h : a = b then isTrue (by rw [h]) else isFalse (fun hh => h (Except.ok.inj hh))
  | .ok _, .error _ => isFalse (fun hh => Except.noConfusion hh)
  | .error _, .ok _ => isFalse (fun hh => Except.noConfusion hh)
  | .error e, .error f =>
    if h : e = f then isTrue (by rw [h]) else isFalse (fun hh => h (Except.error.inj hh))

/-- State of the cache file for the version under consideration: whether a
regular file is present there, whether `File::open` succeeds on it, and
whether `node_archive::load` parses its container format. -/
structure CacheFileState where
  isFile : Bool
  opens : Bool
  parses : Bool
deriving DecidableEq, Repr

/-- Contents of a directory slot in the install tree: a fully extracted
tree or a torn, partially extracted one. -/
inductive DirEntry
  | fullTree
  | tornTree
deriving DecidableEq, Repr

/-- Explicit state of the outside world: the cache file for the version at
hand, oracle outcomes for the fallible syscalls, the archive sizes the
server declares, and the two relevant install-tree slots — `tmpDir` is the
unpack destination under `node_versions_dir`, `versionDir` is the canonical
version-addressed install path `node_version_dir(version)`. -/
structure World where
  cache : CacheFileState
  downloadOk : Bool
  unpackOk : Bool
  renameOk : Bool
  uncompressedSize : Option Nat
  compressedSize : Nat
  tmpDir : Option DirEntry
  versionDir : Option DirEntry
deriving DecidableEq, Repr

/-- Check if the cached file is valid (distro/node.rs `cache_is_valid`):
it may have been corrupted or interrupted in the middle of downloading. -/
def cache_is_valid (cache_file : CacheFileState) : Bool :=
  if cache_file.isFile then
    if cache_file.opens then
      if cache_file.parses then true else false
    else false
  else false

/-- A `node_archive::Archive` as the fetch pipeline sees it: the declared
sizes and whether unpacking it will succeed. -/
structure Archive where
  uncompressedSize : Option Nat
  compressedSize : Nat
  unpackOk : Bool
deriving DecidableEq, Repr

/-- A provisioned Node distribution (distro/node.rs `NodeDistro`). -/
structure NodeDistro where
  archive : Archive
  version : Version
deriving DecidableEq, Repr

/-- Result of provisioning a distribution: the effect trace, the world
after it, and the distribution or a typed failure. -/
structure ProvisionResult where
  effects : List Effect
  world : World
  outcome : Except Err NodeDistro
deriving DecidableEq, Repr

def PUBLIC_NODE_SERVER_ROOT : String := "https://nodejs.org/dist/"

/-- Modelled from the spec: `path::node_archive_file` (path.rs is not under
src/) — the toolchain's native archive file name for a version string
(§6: named deterministically from the version string and the native archive
naming convention). -/
def node_archive_file (version : String) : String :=
  "node-v" ++ version ++ "-linux-x64.tar.gz"

/-- Provision a Node distribution from the filesystem (distro/node.rs
`NodeDistro::cached`): `node_archive::load` on the opened cache file. -/
def NodeDistro.cached (version : Version) (w : World) : Except Err NodeDistro :=
  if w.cache.parses then
    .ok ⟨⟨w.uncompressedSize, w.compressedSize, w.unpackOk⟩, version⟩
  else .error .unknownErr

/-- Provision a Node distribution from a remote distributor (distro/node.rs
`NodeDistro::remote`): reuse the cache file when it is valid, otherwise
ensure the cache directory exists and stream-download the archive into it. -/
def NodeDistro.remote (version : Version) (url : String) (w : World) : ProvisionResult :=
  if cache_is_valid w.cache then
    if w.cache.opens then
      ⟨[.openCache], w, NodeDistro.cached version w⟩
    else
      ⟨[.openCache], w, .error .unknownErr⟩
  else
    if w.downloadOk then
      ⟨[.ensureDir, .download url],
       { w with cache := ⟨true, true, true⟩ },
       .ok ⟨⟨w.uncompressedSize, w.compressedSize, w.unpackOk⟩, version⟩⟩
    else
      ⟨[.ensureDir, .download url],
       { w with cache := ⟨true, true, false⟩ },
       .error (.downloadError version.verString)⟩

/-- Provision a Node distribution from the public Node distributor
(distro/node.rs `NodeDistro::public`). -/
def NodeDistro.public (version : Version) (w : World) : ProvisionResult :=
  let archive_file := node_archive_file version.verString
  let url := PUBLIC_NODE_SERVER_ROOT ++ "v" ++ version.verString ++ "/" ++ archive_file
  NodeDistro.remote version url w

/-- Boolean membership of a version in a list (set membership of the
catalog's `BTreeSet`). -/
def memVersion (v : Version) : List Version → Bool
  | [] => false
  | w :: ws => if w = v then true else memVersion v ws

/-- Modelled from the spec: `catalog::NodeCollection` (catalog.rs is not
under src/) — the set of installed Node versions plus the optional
user-global default (§3 Catalog). -/
structure NodeCollection where
  versions : List Version
  default : Option Version
deriving DecidableEq, Repr

def NodeCollection.contains (c : NodeCollection) (v : Version) : Bool :=
  memVersion v c.versions

/-- Modelled from the spec: `catalog::YarnCollection` (catalog.rs is not
under src/) — the set of installed Yarn versions plus the optional
user-global default. -/
structure YarnCollection where
  versions : List Version
  default : Option Version
deriving DecidableEq, Repr

def YarnCollection.contains (c : YarnCollection) (v : Version) : Bool :=
  memVersion v c.versions

/-- Modelled from the spec: `catalog::Catalog` (catalog.rs is not under
src/) — one collection per toolchain kind. -/
structure Catalog where
  node : NodeCollection
  yarn : YarnCollection
deriving DecidableEq, Repr

/-- Result of `NodeDistro.fetch`: the effect trace, the world after it, the
(borrowed, hence unchanged) collection, and the outcome. -/
structure FetchResult where
  effects : List Effect
  world : World
  collection : NodeCollection
  outcome : Except Err Fetched
deriving DecidableEq, Repr

/-- Fetch this version of Node (distro/node.rs `NodeDistro::fetch`).  If the
collection already contains the version the fetch short-circuits; otherwise
the archive is unpacked into the temporary slot under the versions
directory and renamed into the canonical version directory.  The collection
is threaded through unchanged, mirroring the immutable `&NodeCollection`
borrow; updating it after success is the caller's responsibility. -/
def NodeDistro.fetch (d : NodeDistro) (collection : NodeCollection) (w : World) : FetchResult :=
  if collection.contains d.version then
    ⟨[], w, collection, .ok (.Already d.version)⟩
  else
    if d.archive.unpackOk then
      if w.renameOk then
        ⟨[.unpack, .rename],
         { w with tmpDir := none, versionDir := some .fullTree },
         collection, .ok (.Now d.version)⟩
      else
        ⟨[.unpack, .rename],
         { w with tmpDir := some .fullTree },
         collection, .error .unknownErr⟩
    else
      ⟨[.unpack], { w with tmpDir := some .tornTree }, collection, .error .unknownErr⟩

/-- Modelled from the spec: `version::VersionSpec` (version.rs is not under
src/); only the exact arm is exercised by the session logic under study. -/
inductive VersionSpec
  | exact (v : Version)
deriving DecidableEq, Repr

/-- Result of a whole catalog-driven fetch pipeline run. -/
structure PipelineResult where
  effects : List Effect
  world : World
  catalog : Catalog
  outcome : Except Err Fetched
deriving DecidableEq, Repr

/-- Modelled from the spec: `Catalog::fetch_node` (catalog.rs is not under
src/).  For an exact spec it provisions the distribution from the public
distributor, runs `NodeDistro.fetch`, and — per §4.1 step 6 and the comment
on `NodeDistro::fetch` — the catalog, as the caller, records the version in
its installed set exactly when the fetch reports `Now`. -/
def Catalog.fetch_node (cat : Catalog) (spec : VersionSpec) (w : World) : PipelineResult :=
  match spec with
  | .exact version =>
    match NodeDistro.public version w with
    | ⟨effs, w1, .error e⟩ => ⟨effs, w1, cat, .error e⟩
    | ⟨effs, w1, .ok distro⟩ =>
      let r := distro.fetch cat.node w1
      match r.outcome with
      | .ok (.Now v) =>
        ⟨effs ++ r.effects, r.world,
         { cat with node := { r.collection with versions := v :: r.collection.versions } },
         .ok (.Now v)⟩
      | .ok (.Already v) =>
        ⟨effs ++ r.effects, r.world, { cat with node := r.collection }, .ok (.Already v)⟩
      | .error e =>
        ⟨effs ++ r.effects, r.world, { cat with node := r.collection }, .error e⟩

/-- Modelled from the spec: `Catalog::resolve_node` (catalog.rs is not under
src/); an exact spec resolves to its own version without consulting any
external source (§4.2). -/
def Catalog.resolve_node (_cat : Catalog) (matching : VersionSpec) : Except Err Version :=
  match matching with
  | .exact v => .ok v

/-- Modelled from the spec: `Catalog::resolve_yarn` (catalog.rs is not under
src/); an exact spec resolves to its own version. -/
def Catalog.resolve_yarn (_cat : Catalog) (matching : VersionSpec) : Except Err Version :=
  match matching with
  | .exact v => .ok v

/-- Modelled from the spec: `Catalog::fetch_yarn` (catalog.rs and
distro/yarn.rs are not under src/); same §4.1 shape as `Catalog.fetch_node`,
over the yarn collection. -/
def Catalog.fetch_yarn (cat : Catalog) (spec : VersionSpec) (w : World) : PipelineResult :=
  match spec with
  | .exact version =>
    if cat.yarn.contains version then
      ⟨[], w, cat, .ok (.Already version)⟩
    else if w.downloadOk then
      if w.unpackOk then
        if w.renameOk then
          ⟨[.ensureDir, .download ("yarn-v" ++ version.verString), .unpack, .rename],
           { w with cache := ⟨true, true, true⟩, tmpDir := none, versionDir := some .fullTree },
           { cat with yarn := ⟨version :: cat.yarn.versions, cat.yarn.default⟩ },
           .ok (.Now version)⟩
        else
          ⟨[.ensureDir, .download ("yarn-v" ++ version.verString), .unpack, .rename],
           { w with cache := ⟨true, true, true⟩, tmpDir := some .fullTree }, cat,
           .error .unknownErr⟩
      else
        ⟨[.ensureDir, .download ("yarn-v" ++ version.verString), .unpack],
         { w with cache := ⟨true, true, true⟩, tmpDir := some .tornTree }, cat,
         .error .unknownErr⟩
    else
      ⟨[.ensureDir, .download ("yarn-v" ++ version.verString)],
       { w with cache := ⟨true, true, false⟩ }, cat,
       .error (.downloadError version.verString)⟩

/-- A toolchain manifest (manifest/mod.rs `ToolchainManifest`): the Node
pin is mandatory, the Yarn pin optional. -/
structure ToolchainManifest where
  node : Version
  node_str : String
  yarn : Option Version
  yarn_str : Option String
deriving DecidableEq, Repr

/-- A Node manifest file (manifest/mod.rs `Manifest`). -/
structure Manifest where
  toolchain : Option ToolchainManifest
  dependencies : List (String × String)
  dev_dependencies : List (String × String)
  bin : List (String × String)
deriving DecidableEq, Repr

/-- Whether this manifest contains a toolchain section — at least Node is
pinned (manifest/mod.rs `Manifest::has_toolchain`). -/
def Manifest.has_toolchain (m : Manifest) : Bool :=
  m.toolchain.isSome

/-- Pinned version of Node, if any (manifest/mod.rs `Manifest::node`). -/
def Manifest.node (m : Manifest) : Option Version :=
  m.toolchain.map (fun t => t.node)

/-- Pinned version of Node as a string (manifest/mod.rs
`Manifest::node_str`). -/
def Manifest.node_str (m : Manifest) : Option String :=
  m.toolchain.map (fun t => t.node_str)

/-- Pinned version of Yarn, if any (manifest/mod.rs `Manifest::yarn`):
`map` then `unwrap_or(None)`. -/
def Manifest.yarn (m : Manifest) : Option Version :=
  (m.toolchain.map (fun t => t.yarn)).getD none

/-- Pinned version of Yarn as a string (manifest/mod.rs
`Manifest::yarn_str`). -/
def Manifest.yarn_str (m : Manifest) : Option String :=
  (m.toolchain.map (fun t => t.yarn_str)).getD none

/-- Modelled from the spec: `project::Project` (project.rs is not under
src/) — the Node project enclosing the current directory, carrying its
manifest. -/
structure Project where
  manifest : Manifest
deriving DecidableEq, Repr

/-- Modelled from the spec: `Project::is_pinned` (project.rs is not under
src/); per the doc comment on `Session::in_pinned_project`, a project is
pinned when its manifest has a toolchain section. -/
def Project.is_pinned (p : Project) : Bool :=
  p.manifest.has_toolchain

/-- Value of the `NOTION_NODE_VERSION` environment variable as
`std::env::var` reports it. -/
inductive EnvVar
  | present (s : String)
  | notPresent
  | notUnicode
deriving DecidableEq, Repr

/-- The session (session.rs `Session`): the current project (if any), the
tool catalog, the process environment, and the world the pipeline acts on.
Config and the event log are excluded collaborators (§1). -/
structure Session where
  project : Option Project
  catalog : Catalog
  nodeEnvVar : EnvVar
  world : World
deriving DecidableEq, Repr

/-- Whether the current project has a pinned toolchain (session.rs
`Session::in_pinned_project`). -/
def Session.in_pinned_project (s : Session) : Bool :=
  match s.project with
  | some project => project.is_pinned
  | none => false

/-- Result of a session-level query: the effect trace, the session after
it, and the produced optional version or a typed failure. -/
structure SessionResult where
  effects : List Effect
  session : Session
  outcome : Except Err (Option Version)
deriving DecidableEq, Repr

/-- Produce the user version of Node (session.rs `Session::user_node`):
the `NOTION_NODE_VERSION` environment variable if present (parse failures
surface as errors, non-unicode values hit `unimplemented!`), otherwise the
catalog's user default. -/
def Session.user_node (s : Session) : SessionResult :=
  match s.nodeEnvVar with
  | .present str =>
    match Version.parse str with
    | some v => ⟨[], s, .ok (some v)⟩
    | none => ⟨[], s, .error .unknownErr⟩
  | .notPresent => ⟨[], s, .ok s.catalog.node.default⟩
  | .notUnicode => ⟨[], s, .error .panicked⟩

/-- Produce the version of Node for the current session (session.rs
`Session::current_node`); the two `unwrap`s are modelled as explicit
`panicked` outcomes. -/
def Session.current_node (s : Session) : SessionResult :=
  if s.in_pinned_project then
    match s.project with
    | none => ⟨[], s, .error .panicked⟩
    | some project =>
      match project.manifest.node with
      | none => ⟨[], s, .error .panicked⟩
      | some version =>
        if s.catalog.node.contains version then
          ⟨[], s, .ok (some version)⟩
        else
          let r := Catalog.fetch_node s.catalog (.exact version) s.world
          match r.outcome with
          | .ok fetched =>
            ⟨r.effects, { s with catalog := r.catalog, world := r.world },
             .ok (some fetched.into_version)⟩
          | .error e =>
            ⟨r.effects, { s with catalog := r.catalog, world := r.world }, .error e⟩
  else
    s.user_node

/-- Produce the version of Yarn for the current session (session.rs
`Session::current_yarn`); pinning yarn is optional, so a pinned project
without a yarn pin falls back to the user default. -/
def Session.current_yarn (s : Session) : SessionResult :=
  if s.in_pinned_project then
    match s.project with
    | none => ⟨[], s, .error .panicked⟩
    | some project =>
      match project.manifest.yarn with
      | some version =>
        if s.catalog.yarn.contains version then
          ⟨[], s, .ok (some version)⟩
        else
          let r := Catalog.fetch_yarn s.catalog (.exact version) s.world
          match r.outcome with
          | .ok fetched =>
            ⟨r.effects, { s with catalog := r.catalog, world := r.world },
             .ok (some fetched.into_version)⟩
          | .error e =>
            ⟨r.effects, { s with catalog := r.catalog, world := r.world }, .error e⟩
      | none => ⟨[], s, .ok s.catalog.yarn.default⟩
  else
    ⟨[], s, .ok s.catalog.yarn.default⟩

/-- Result of a pin operation: the effect trace and success or failure. -/
structure PinResult where
  effects : List Effect
  outcome : Except Err Unit
deriving DecidableEq, Repr

/-- Update the toolchain with a matching Node version (session.rs
`Session::pin_node_version`); resolution is recorded as a `resolve` effect
and the manifest write (`Project::pin_node_in_toolchain`, project.rs, not
under src/) as a `pinWrite` effect. -/
def Session.pin_node_version (s : Session) (matching : VersionSpec) : PinResult :=
  match s.project with
  | some _project =>
    match Catalog.resolve_node s.catalog matching with
    | .ok _nodeVersion => ⟨[.resolve, .pinWrite], .ok ()⟩
    | .error e => ⟨[.resolve], .error e⟩
  | none => ⟨[], .error .notInPackage⟩

/-- Update the toolchain with a matching Yarn version (session.rs
`Session::pin_yarn_version`). -/
def Session.pin_yarn_version (s : Session) (matching : VersionSpec) : PinResult :=
  match s.project with
  | some _project =>
    match Catalog.resolve_yarn s.catalog matching with
    | .ok _yarnVersion => ⟨[.resolve, .pinWrite], .ok ()⟩
    | .error e => ⟨[.resolve], .error e⟩
  | none => ⟨[], .error .notInPackage⟩

/-- The URL the public provisioning path requests. -/
def publicUrl (v : Version) : String :=
  PUBLIC_NODE_SERVER_ROOT ++ "v" ++ v.verString ++ "/" ++ node_archive_file v.verString

/-- The yarn pin visible to the current session, if any. -/
def Session.yarn_pin (s : Session) : Option Version :=
  match s.project with
  | some p => p.manifest.yarn
  | none => none

def v650 : Version := ⟨6, 5, 0⟩

/-- A world in which every syscall succeeds and the cache starts empty. -/
def wAllOk : World := ⟨⟨false, false, false⟩, true, true, true, some 100, 50, none, none⟩

/-- A world with a valid cache file in which the final rename fails. -/
def wRenameFail : World := ⟨⟨true, true, true⟩, true, true, false, some 100, 50, none, none⟩

def catEmpty : Catalog := ⟨⟨[], none⟩, ⟨[], none⟩⟩

def sNoProject : Session := ⟨none, catEmpty, .notPresent, wAllOk⟩

/-- A projectless session with the environment override set and a
different user-global default configured. -/
def sEnvSet : Session :=
  ⟨none, ⟨⟨[], some ⟨9, 9, 9⟩⟩, ⟨[], none⟩⟩, .present "1.2.3", wAllOk⟩

def sEnvUnset : Session :=
  ⟨none, ⟨⟨[], some ⟨9, 9, 9⟩⟩, ⟨[], none⟩⟩, .notPresent, wAllOk⟩

/-- A projectless session with the override set to 1.0.0 and the
user-global default set to 8.0.0. -/
def sEnvOverride : Session :=
  ⟨none, ⟨⟨[], some ⟨8, 0, 0⟩⟩, ⟨[], none⟩⟩, .present "1.0.0", wAllOk⟩

/-- A projectless session with the override set but no default at all. -/
def sEnvNoDefault : Session :=
  ⟨none, ⟨⟨[], none⟩, ⟨[], none⟩⟩, .present "1.0.0", wAllOk⟩

def sAllUnset : Session := ⟨none, ⟨⟨[], none⟩, ⟨[], none⟩⟩, .notPresent, wAllOk⟩

/-- A project pinning Node 6.5.0 and no yarn version. -/
def projPinned : Project := ⟨⟨some ⟨⟨6, 5, 0⟩, "6.5.0", none, none⟩, [], [], []⟩⟩

/-- A session inside `projPinned` whose user-global default is 8.0.0. -/
def sPinned : Session :=
  ⟨some projPinned, ⟨⟨[], some ⟨8, 0, 0⟩⟩, ⟨[], none⟩⟩, .notPresent, wAllOk⟩

theorem cache_is_valid_eq (c : CacheFileState) :
    cache_is_valid c = (c.isFile && c.opens && c.parses) := by
  rcases c with ⟨f, o, p⟩
  cases f <;> cases o <;> cases p <;> rfl

theorem cacheValid_opens {c : CacheFileState} (h : cache_is_valid c = true) :
    c.opens = true := by
  rw [cache_is_valid_eq] at h
  rcases c with ⟨f, o, p⟩
  cases f <;> cases o <;> cases p <;> simp_all

theorem cacheValid_parses {c : CacheFileState} (h : cache_is_valid c = true) :
    c.parses = true := by
  rw [cache_is_valid_eq] at h
  rcases c with ⟨f, o, p⟩
  cases f <;> cases o <;> cases p <;> simp_all

theorem remote_eq_of_valid {w : World} (v : Version) (url : String)
    (h : cache_is_valid w.cache = true) :
    NodeDistro.remote v url w =
      ⟨[.openCache], w, .ok ⟨⟨w.uncompressedSize, w.compressedSize, w.unpackOk⟩, v⟩⟩ := by
  unfold NodeDistro.remote NodeDistro.cached
  simp [h, cacheValid_opens h, cacheValid_parses h]

theorem remote_eq_of_invalid_dl {w : World} (v : Version) (url : String)
    (h : cache_is_valid w.cache = false) (hd : w.downloadOk = true) :
    NodeDistro.remote v url w =
      ⟨[.ensureDir, .download url], { w with cache := ⟨true, true, true⟩ },
       .ok ⟨⟨w.uncompressedSize, w.compressedSize, w.unpackOk⟩, v⟩⟩ := by
  unfold NodeDistro.remote
  simp [h, hd]

theorem remote_eq_of_invalid_nodl {w : World} (v : Version) (url : String)
    (h : cache_is_valid w.cache = false) (hd : w.downloadOk = false) :
    NodeDistro.remote v url w =
      ⟨[.ensureDir, .download url], { w with cache := ⟨true, true, false⟩ },
       .error (.downloadError v.verString)⟩ := by
  unfold NodeDistro.remote
  simp [h, hd]

theorem public_eq (v : Version) (w : World) :
    NodeDistro.public v w = NodeDistro.remote v (publicUrl v) w := rfl

/-- C3: a cache file is reused — provisioning performs no network transfer —
exactly when it is a regular file that can be opened and whose container
format parses; any file failing one of these checks (for instance one
truncated mid-write) causes provisioning to re-download from the source URL
instead. -/
theorem cache_validity_reuse :
    (∀ c : CacheFileState, cache_is_valid c = (c.isFile && c.opens && c.parses)) ∧
    (∀ (v : Version) (url : String) (w : World),
      countDownloads (NodeDistro.remote v url w).effects =
        if cache_is_valid w.cache then 0 else 1) := by
  constructor
  · exact cache_is_valid_eq
  · intro v url w
    by_cases hc : cache_is_valid w.cache = true
    · rw [remote_eq_of_valid v url hc, hc]
      rfl
    · rw [Bool.not_eq_true] at hc
      cases hd : w.downloadOk
      · rw [remote_eq_of_invalid_nodl v url hc hd, hc]
        rfl
      · rw [remote_eq_of_invalid_dl v url hc hd, hc]
        rfl

theorem fetch_eq_of_contains {c : NodeCollection} (d : NodeDistro) (w : World)
    (h : c.contains d.version = true) :
    NodeDistro.fetch d c w = ⟨[], w, c, .ok (.Already d.version)⟩ := by
  unfold NodeDistro.fetch
  simp [h]

theorem fetch_eq_now {c : NodeCollection} {d : NodeDistro} {w : World}
    (h : c.contains d.version = false) (hu : d.archive.unpackOk = true)
    (hr : w.renameOk = true) :
    NodeDistro.fetch d c w =
      ⟨[.unpack, .rename], { w with tmpDir := none, versionDir := some .fullTree },
       c, .ok (.Now d.version)⟩ := by
  unfold NodeDistro.fetch
  simp [h, hu, hr]

theorem fetch_eq_rename_fail {c : NodeCollection} {d : NodeDistro} {w : World}
    (h : c.contains d.version = false) (hu : d.archive.unpackOk = true)
    (hr : w.renameOk = false) :
    NodeDistro.fetch d c w =
      ⟨[.unpack, .rename], { w with tmpDir := some .fullTree }, c,
       .error .unknownErr⟩ := by
  unfold NodeDistro.fetch
  simp [h, hu, hr]

theorem fetch_eq_unpack_fail {c : NodeCollection} {d : NodeDistro} {w : World}
    (h : c.contains d.version = false) (hu : d.archive.unpackOk = false) :
    NodeDistro.fetch d c w =
      ⟨[.unpack], { w with tmpDir := some .tornTree }, c, .error .unknownErr⟩ := by
  unfold NodeDistro.fetch
  simp [h, hu]

theorem fetch_collection_eq (d : NodeDistro) (c : NodeCollection) (w : World) :
    (NodeDistro.fetch d c w).collection = c := by
  unfold NodeDistro.fetch
  by_cases h : c.contains d.version = true
  · simp [h]
  · rw [Bool.not_eq_true] at h
    cases hu : d.archive.unpackOk <;> cases hr : w.renameOk <;> simp [h, hu, hr]

theorem memVersion_cons_self (v : Version) (vs : List Version) :
    memVersion v (v :: vs) = true := by
  simp [memVersion]

theorem fetch_node_already_valid (cat : Catalog) (v : Version) (w : World)
    (hm : cat.node.contains v = true) (hc : cache_is_valid w.cache = true) :
    Catalog.fetch_node cat (.exact v) w = ⟨[.openCache], w, cat, .ok (.Already v)⟩ := by
  simp only [Catalog.fetch_node]
  rw [public_eq, remote_eq_of_valid v (publicUrl v) hc]
  simp [fetch_eq_of_contains (c := cat.node) (⟨⟨w.uncompressedSize, w.compressedSize, w.unpackOk⟩, v⟩ : NodeDistro) w hm]

theorem fetch_node_already_dl (cat : Catalog) (v : Version) (w : World)
    (hm : cat.node.contains v = true) (hc : cache_is_valid w.cache = false)
    (hd : w.downloadOk = true) :
    Catalog.fetch_node cat (.exact v) w =
      ⟨[.ensureDir, .download (publicUrl v)], { w with cache := ⟨true, true, true⟩ },
       cat, .ok (.Already v)⟩ := by
  simp only [Catalog.fetch_node]
  rw [public_eq, remote_eq_of_invalid_dl v (publicUrl v) hc hd]
  simp [fetch_eq_of_contains (c := cat.node) (⟨⟨w.uncompressedSize, w.compressedSize, w.unpackOk⟩, v⟩ : NodeDistro) { w with cache := ⟨true, true, true⟩ } hm]

theorem fetch_node_now_valid (cat : Catalog) (v : Version) (w : World)
    (hm : cat.node.contains v = false) (hc : cache_is_valid w.cache = true)
    (hu : w.unpackOk = true) (hr : w.renameOk = true) :
    Catalog.fetch_node cat (.exact v) w =
      ⟨[.openCache, .unpack, .rename],
       { w with tmpDir := none, versionDir := some .fullTree },
       ⟨⟨v :: cat.node.versions, cat.node.default⟩, cat.yarn⟩, .ok (.Now v)⟩ := by
  simp only [Catalog.fetch_node]
  rw [public_eq, remote_eq_of_valid v (publicUrl v) hc]
  simp [fetch_eq_now (c := cat.node) (d := (⟨⟨w.uncompressedSize, w.compressedSize, w.unpackOk⟩, v⟩ : NodeDistro)) (w := w) hm hu hr]

theorem fetch_node_now_dl (cat : Catalog) (v : Version) (w : World)
    (hm : cat.node.contains v = false) (hc : cache_is_valid w.cache = false)
    (hd : w.downloadOk = true) (hu : w.unpackOk = true) (hr : w.renameOk = true) :
    Catalog.fetch_node cat (.exact v) w =
      ⟨[.ensureDir, .download (publicUrl v), .unpack, .rename],
       { w with cache := ⟨true, true, true⟩, tmpDir := none, versionDir := some .fullTree },
       ⟨⟨v :: cat.node.versions, cat.node.default⟩, cat.yarn⟩, .ok (.Now v)⟩ := by
  simp only [Catalog.fetch_node]
  rw [public_eq, remote_eq_of_invalid_dl v (publicUrl v) hc hd]
  simp [fetch_eq_now (c := cat.node) (d := (⟨⟨w.uncompressedSize, w.compressedSize, w.unpackOk⟩, v⟩ : NodeDistro)) (w := { w with cache := ⟨true, true, true⟩ }) hm hu hr]

theorem fetch_node_rename_fail_valid (cat : Catalog) (v : Version) (w : World)
    (hm : cat.node.contains v = false) (hc : cache_is_valid w.cache = true)
    (hu : w.unpackOk = true) (hr : w.renameOk = false) :
    Catalog.fetch_node cat (.exact v) w =
      ⟨[.openCache, .unpack, .rename], { w with tmpDir := some .fullTree },
       cat, .error .unknownErr⟩ := by
  simp only [Catalog.fetch_node]
  rw [public_eq, remote_eq_of_valid v (publicUrl v) hc]
  simp [fetch_eq_rename_fail (c := cat.node) (d := (⟨⟨w.uncompressedSize, w.compressedSize, w.unpackOk⟩, v⟩ : NodeDistro)) (w := w) hm hu hr]

theorem fetch_node_rename_fail_dl (cat : Catalog) (v : Version) (w : World)
    (hm : cat.node.contains v = false) (hc : cache_is_valid w.cache = false)
    (hd : w.downloadOk = true) (hu : w.unpackOk = true) (hr : w.renameOk = false) :
    Catalog.fetch_node cat (.exact v) w =
      ⟨[.ensureDir, .download (publicUrl v), .unpack, .rename],
       { w with cache := ⟨true, true, true⟩, tmpDir := some .fullTree },
       cat, .error .unknownErr⟩ := by
  simp only [Catalog.fetch_node]
  rw [public_eq, remote_eq_of_invalid_dl v (publicUrl v) hc hd]
  simp [fetch_eq_rename_fail (c := cat.node) (d := (⟨⟨w.uncompressedSize, w.compressedSize, w.unpackOk⟩, v⟩ : NodeDistro)) (w := { w with cache := ⟨true, true, true⟩ }) hm hu hr]

theorem fetch_node_unpack_fail_valid (cat : Catalog) (v : Version) (w : World)
    (hm : cat.node.contains v = false) (hc : cache_is_valid w.cache = true)
    (hu : w.unpackOk = false) :
    Catalog.fetch_node cat (.exact v) w =
      ⟨[.openCache, .unpack], { w with tmpDir := some .tornTree },
       cat, .error .unknownErr⟩ := by
  simp only [Catalog.fetch_node]
  rw [public_eq, remote_eq_of_valid v (publicUrl v) hc]
  simp [fetch_eq_unpack_fail (c := cat.node) (d := (⟨⟨w.uncompressedSize, w.compressedSize, w.unpackOk⟩, v⟩ : NodeDistro)) (w := w) hm hu]

theorem fetch_node_unpack_fail_dl (cat : Catalog) (v : Version) (w : World)
    (hm : cat.node.contains v = false) (hc : cache_is_valid w.cache = false)
    (hd : w.downloadOk = true) (hu : w.unpackOk = false) :
    Catalog.fetch_node cat (.exact v) w =
      ⟨[.ensureDir, .download (publicUrl v), .unpack],
       { w with cache := ⟨true, true, true⟩, tmpDir := some .tornTree },
       cat, .error .unknownErr⟩ := by
  simp only [Catalog.fetch_node]
  rw [public_eq, remote_eq_of_invalid_dl v (publicUrl v) hc hd]
  simp [fetch_eq_unpack_fail (c := cat.node) (d := (⟨⟨w.uncompressedSize, w.compressedSize, w.unpackOk⟩, v⟩ : NodeDistro)) (w := { w with cache := ⟨true, true, true⟩ }) hm hu]

theorem fetch_node_download_fail (cat : Catalog) (v : Version) (w : World)
    (hc : cache_is_valid w.cache = false) (hd : w.downloadOk = false) :
    Catalog.fetch_node cat (.exact v) w =
      ⟨[.ensureDir, .download (publicUrl v)], { w with cache := ⟨true, true, false⟩ },
       cat, .error (.downloadError v.verString)⟩ := by
  simp only [Catalog.fetch_node]
  rw [public_eq, remote_eq_of_invalid_nodl v (publicUrl v) hc hd]

theorem contains_cons_self (v : Version) (vs : List Version) (d : Option Version) :
    NodeCollection.contains ⟨v :: vs, d⟩ v = true := by
  simp [NodeCollection.contains, memVersion]

/-- C6: the fetcher never mutates the catalog's installed-version
collection — `NodeDistro.fetch` hands back the collection it borrowed
unchanged on every path, success or failure — and the version is added to
the installed set only by the caller, exactly when the fetch reports a
fresh install. -/
theorem fetcher_single_writer :
    (∀ (d : NodeDistro) (c : NodeCollection) (w : World),
      (NodeDistro.fetch d c w).collection = c) ∧
    (∀ (v : Version) (cat : Catalog) (w : World),
      (Catalog.fetch_node cat (.exact v) w).catalog.node.versions =
        if (Catalog.fetch_node cat (.exact v) w).outcome = .ok (.Now v)
        then v :: cat.node.versions
        else cat.node.versions) := by
  refine ⟨fetch_collection_eq, ?_⟩
  intro v cat w
  by_cases hc : cache_is_valid w.cache = true
  · by_cases hm : cat.node.contains v = true
    · rw [fetch_node_already_valid cat v w hm hc]
      simp
    · rw [Bool.not_eq_true] at hm
      cases hu : w.unpackOk
      · rw [fetch_node_unpack_fail_valid cat v w hm hc hu]
        simp
      · cases hr : w.renameOk
        · rw [fetch_node_rename_fail_valid cat v w hm hc hu hr]
          simp
        · rw [fetch_node_now_valid cat v w hm hc hu hr]
          simp
  · rw [Bool.not_eq_true] at hc
    cases hd : w.downloadOk
    · rw [fetch_node_download_fail cat v w hc hd]
      simp
    · by_cases hm : cat.node.contains v = true
      · rw [fetch_node_already_dl cat v w hm hc hd]
        simp
      · rw [Bool.not_eq_true] at hm
        cases hu : w.unpackOk
        · rw [fetch_node_unpack_fail_dl cat v w hm hc hd hu]
          simp
        · cases hr : w.renameOk
          · rw [fetch_node_rename_fail_dl cat v w hm hc hd hu hr]
            simp
          · rw [fetch_node_now_dl cat v w hm hc hd hu hr]
            simp

/-- C2: if extraction succeeds but the rename of the unpacked directory
into the canonical version-addressed path fails, the fetch returns an
error rather than an installed outcome, the catalog does not record the
version as installed, and the canonical install path is left exactly as it
was before the call. -/
theorem atomic_install_rename_fail :
    (∀ (d : NodeDistro) (c : NodeCollection) (w : World),
      c.contains d.version = false → d.archive.unpackOk = true → w.renameOk = false →
      NodeDistro.fetch d c w =
        ⟨[.unpack, .rename], { w with tmpDir := some .fullTree }, c, .error .unknownErr⟩) ∧
    (∀ (v : Version) (cat : Catalog) (w : World),
      cat.node.contains v = false → w.unpackOk = true → w.renameOk = false →
      (∃ e, (Catalog.fetch_node cat (.exact v) w).outcome = .error e) ∧
      (Catalog.fetch_node cat (.exact v) w).catalog = cat ∧
      (Catalog.fetch_node cat (.exact v) w).world.versionDir = w.versionDir) := by
  refine ⟨fun d c w h hu hr => fetch_eq_rename_fail h hu hr, ?_⟩
  intro v cat w hm hu hr
  by_cases hc : cache_is_valid w.cache = true
  · rw [fetch_node_rename_fail_valid cat v w hm hc hu hr]
    exact ⟨⟨.unknownErr, rfl⟩, rfl, rfl⟩
  · rw [Bool.not_eq_true] at hc
    cases hd : w.downloadOk
    · rw [fetch_node_download_fail cat v w hc hd]
      exact ⟨⟨.downloadError v.verString, rfl⟩, rfl, rfl⟩
    · rw [fetch_node_rename_fail_dl cat v w hm hc hd hu hr]
      exact ⟨⟨.unknownErr, rfl⟩, rfl, rfl⟩

/-- C1: for a version already in the catalog's installed set, `fetch` on a
provisioned distribution returns `AlreadyInstalled` immediately, with an
empty effect trace (no unpack, no rename, no filesystem or network access)
and no state change; consequently two successive fetch-pipeline runs for
one version perform at most one network transfer and at most one unpack,
the second run returning `AlreadyInstalled`. -/
theorem fetch_idempotent :
    (∀ (d : NodeDistro) (c : NodeCollection) (w : World),
      c.contains d.version = true →
      NodeDistro.fetch d c w = ⟨[], w, c, .ok (.Already d.version)⟩) ∧
    (∀ (v : Version) (cat : Catalog) (w : World),
      w.downloadOk = true → w.unpackOk = true → w.renameOk = true →
      countDownloads ((Catalog.fetch_node cat (.exact v) w).effects ++
          (Catalog.fetch_node (Catalog.fetch_node cat (.exact v) w).catalog (.exact v)
            (Catalog.fetch_node cat (.exact v) w).world).effects) ≤ 1 ∧
      countUnpacks ((Catalog.fetch_node cat (.exact v) w).effects ++
          (Catalog.fetch_node (Catalog.fetch_node cat (.exact v) w).catalog (.exact v)
            (Catalog.fetch_node cat (.exact v) w).world).effects) ≤ 1 ∧
      (Catalog.fetch_node (Catalog.fetch_node cat (.exact v) w).catalog (.exact v)
        (Catalog.fetch_node cat (.exact v) w).world).outcome = .ok (.Already v)) := by
  refine ⟨fun d c w h => fetch_eq_of_contains d w h, ?_⟩
  intro v cat w hd hu hr
  by_cases hc : cache_is_valid w.cache = true
  · by_cases hm : cat.node.contains v = true
    · have h1 := fetch_node_already_valid cat v w hm hc
      rw [h1]
      dsimp only
      rw [h1]
      refine ⟨?_, ?_, rfl⟩ <;>
        simp [countDownloads, countUnpacks, Effect.isDownload, Effect.isUnpack]
    · rw [Bool.not_eq_true] at hm
      have h1 := fetch_node_now_valid cat v w hm hc hu hr
      rw [h1]
      dsimp only
      have h2 := fetch_node_already_valid
        ⟨⟨v :: cat.node.versions, cat.node.default⟩, cat.yarn⟩ v
        { w with tmpDir := none, versionDir := some .fullTree }
        (contains_cons_self v cat.node.versions cat.node.default) hc
      rw [h2]
      refine ⟨?_, ?_, rfl⟩ <;>
        simp [countDownloads, countUnpacks, Effect.isDownload, Effect.isUnpack]
  · rw [Bool.not_eq_true] at hc
    by_cases hm : cat.node.contains v = true
    · have h1 := fetch_node_already_dl cat v w hm hc hd
      rw [h1]
      dsimp only
      have h2 := fetch_node_already_valid cat v { w with cache := ⟨true, true, true⟩ }
        hm rfl
      rw [h2]
      refine ⟨?_, ?_, rfl⟩ <;>
        simp [countDownloads, countUnpacks, Effect.isDownload, Effect.isUnpack]
    · rw [Bool.not_eq_true] at hm
      have h1 := fetch_node_now_dl cat v w hm hc hd hu hr
      rw [h1]
      dsimp only
      have h2 := fetch_node_already_valid
        ⟨⟨v :: cat.node.versions, cat.node.default⟩, cat.yarn⟩ v
        { w with cache := ⟨true, true, true⟩, tmpDir := none, versionDir := some .fullTree }
        (contains_cons_self v cat.node.versions cat.node.default) rfl
      rw [h2]
      refine ⟨?_, ?_, rfl⟩ <;>
        simp [countDownloads, countUnpacks, Effect.isDownload, Effect.isUnpack]

/-- C8: provisioning a version from the public distributor requests exactly
the URL obtained by concatenating the public server root, the literal "v",
the version's canonical string, "/", and the native archive file name for
that version — and no other URL. -/
theorem public_requests_exact_url :
    ∀ (v : Version) (w : World),
      downloadUrls (NodeDistro.public v w).effects =
        if cache_is_valid w.cache then ([] : List String)
        else [PUBLIC_NODE_SERVER_ROOT ++ "v" ++ v.verString ++ "/"
                ++ node_archive_file v.verString] := by
  intro v w
  rw [public_eq]
  by_cases hc : cache_is_valid w.cache = true
  · rw [remote_eq_of_valid v (publicUrl v) hc, hc]
    rfl
  · rw [Bool.not_eq_true] at hc
    cases hd : w.downloadOk
    · rw [remote_eq_of_invalid_nodl v (publicUrl v) hc hd, hc]
      rfl
    · rw [remote_eq_of_invalid_dl v (publicUrl v) hc hd, hc]
      rfl

theorem fetch_node_no_panic (cat : Catalog) (v : Version) (w : World) :
    (Catalog.fetch_node cat (.exact v) w).outcome ≠ .error .panicked := by
  by_cases hc : cache_is_valid w.cache = true
  · by_cases hm : cat.node.contains v = true
    · rw [fetch_node_already_valid cat v w hm hc]
      simp
    · rw [Bool.not_eq_true] at hm
      cases hu : w.unpackOk
      · rw [fetch_node_unpack_fail_valid cat v w hm hc hu]
        simp
      · cases hr : w.renameOk
        · rw [fetch_node_rename_fail_valid cat v w hm hc hu hr]
          simp
        · rw [fetch_node_now_valid cat v w hm hc hu hr]
          simp
  · rw [Bool.not_eq_true] at hc
    cases hd : w.downloadOk
    · rw [fetch_node_download_fail cat v w hc hd]
      simp
    · by_cases hm : cat.node.contains v = true
      · rw [fetch_node_already_dl cat v w hm hc hd]
        simp
      · rw [Bool.not_eq_true] at hm
        cases hu : w.unpackOk
        · rw [fetch_node_unpack_fail_dl cat v w hm hc hd hu]
          simp
        · cases hr : w.renameOk
          · rw [fetch_node_rename_fail_dl cat v w hm hc hd hu hr]
            simp
          · rw [fetch_node_now_dl cat v w hm hc hd hu hr]
            simp

/-- C5: invoked outside a project, both pin operations return the typed
`NotInPackageError` failure with an empty effect trace — no version
resolution is performed and nothing is written. -/
theorem pin_requires_project :
    ∀ (s : Session) (m : VersionSpec),
      s.project = none →
      Session.pin_node_version s m = ⟨[], .error .notInPackage⟩ ∧
      Session.pin_yarn_version s m = ⟨[], .error .notInPackage⟩ := by
  intro s m h
  unfold Session.pin_node_version Session.pin_yarn_version
  rw [h]
  exact ⟨rfl, rfl⟩

/-- Witness for C5: pinning from a session with no project fails with the
typed error and performs nothing. -/
theorem pin_requires_project_witness :
    Session.pin_node_version sNoProject (.exact v650) = ⟨[], .error .notInPackage⟩ ∧
    Session.pin_yarn_version sNoProject (.exact v650) = ⟨[], .error .notInPackage⟩ :=
  pin_requires_project sNoProject (.exact v650) rfl

/-- C9: with no pinned project, a present and parseable NOTION_NODE_VERSION
value determines the active Node version — the catalog's user default is
not consulted — and the catalog default is returned only when the variable
is absent. -/
theorem env_var_overrides_default :
    ∀ s : Session,
      s.in_pinned_project = false →
      (∀ (str : String) (ver : Version),
        s.nodeEnvVar = .present str → Version.parse str = some ver →
        Session.current_node s = ⟨[], s, .ok (some ver)⟩) ∧
      (s.nodeEnvVar = .notPresent →
        Session.current_node s = ⟨[], s, .ok s.catalog.node.default⟩) := by
  intro s hp
  constructor
  · intro str ver he hv
    simp [Session.current_node, hp, Session.user_node, he, hv]
  · intro he
    simp [Session.current_node, hp, Session.user_node, he]

/-- Witness for C9: with the override set to "1.2.3" the session yields
1.2.3 even though the default is 9.9.9; with it unset it yields the
default. -/
theorem env_var_overrides_default_witness :
    Session.current_node sEnvSet = ⟨[], sEnvSet, .ok (some ⟨1, 2, 3⟩)⟩ ∧
    Session.current_node sEnvUnset = ⟨[], sEnvUnset, .ok (some ⟨9, 9, 9⟩)⟩ :=
  ⟨(env_var_overrides_default sEnvSet rfl).1 "1.2.3" ⟨1, 2, 3⟩ rfl (by decide),
   (env_var_overrides_default sEnvUnset rfl).2 rfl⟩

/-- C4 counterexample: in a session outside any project whose user-global
default is 8.0.0 but whose NOTION_NODE_VERSION override is "1.0.0", the
active-version query returns 1.0.0, not the user-global default. -/
theorem pinned_precedence_cex :
    sEnvOverride.in_pinned_project = false ∧
    sEnvOverride.catalog.node.default = some ⟨8, 0, 0⟩ ∧
    (Session.current_node sEnvOverride).outcome = .ok (some ⟨1, 0, 0⟩) ∧
    (Session.current_node sEnvOverride).outcome ≠ .ok sEnvOverride.catalog.node.default := by
  refine ⟨rfl, rfl, by decide, by decide⟩

/-- C4 (amended): inside a project with a pinned Node version, the
active-version query returns the pinned version — fetching and installing
it first when it is not yet in the catalog — regardless of the user-global
default; outside any pinned project, when NOTION_NODE_VERSION is absent,
it returns the user-global default. -/
theorem pinned_precedence :
    (∀ (s : Session) (p : Project) (ver : Version),
      s.project = some p → p.manifest.node = some ver →
      s.world.downloadOk = true → s.world.unpackOk = true → s.world.renameOk = true →
      (Session.current_node s).outcome = .ok (some ver) ∧
      (Session.current_node s).session.catalog.node.contains ver = true) ∧
    (∀ s : Session, s.in_pinned_project = false → s.nodeEnvVar = .notPresent →
      (Session.current_node s).outcome = .ok s.catalog.node.default) := by
  constructor
  · intro s p ver hp hn hd hu hr
    have hts : p.manifest.toolchain.isSome = true := by
      rcases hmt : p.manifest.toolchain with _ | t
      · rw [Manifest.node, hmt] at hn
        simp at hn
      · rfl
    have hpin : s.in_pinned_project = true := by
      simp [Session.in_pinned_project, hp, Project.is_pinned, Manifest.has_toolchain, hts]
    by_cases hct : s.catalog.node.contains ver = true
    · refine ⟨?_, ?_⟩ <;> simp [Session.current_node, hpin, hp, hn, hct]
    · rw [Bool.not_eq_true] at hct
      by_cases hcv : cache_is_valid s.world.cache = true
      · have h1 := fetch_node_now_valid s.catalog ver s.world hct hcv hu hr
        have hm2 : memVersion ver s.catalog.node.versions = false := hct
        refine ⟨?_, ?_⟩ <;>
          simp [Session.current_node, hpin, hp, hn, hm2, h1, Fetched.into_version,
                NodeCollection.contains, memVersion]
      · rw [Bool.not_eq_true] at hcv
        have h1 := fetch_node_now_dl s.catalog ver s.world hct hcv hd hu hr
        have hm2 : memVersion ver s.catalog.node.versions = false := hct
        refine ⟨?_, ?_⟩ <;>
          simp [Session.current_node, hpin, hp, hn, hm2, h1, Fetched.into_version,
                NodeCollection.contains, memVersion]
  · intro s hp he
    simp [Session.current_node, hp, Session.user_node, he]

/-- Witness for the amended C4: inside the 6.5.0-pinned project the query
returns 6.5.0 although the user default is 8.0.0, and installs it; outside
a project with the override unset it returns the user default. -/
theorem pinned_precedence_witness :
    ((Session.current_node sPinned).outcome = .ok (some ⟨6, 5, 0⟩) ∧
      (Session.current_node sPinned).session.catalog.node.contains ⟨6, 5, 0⟩ = true) ∧
    (Session.current_node sEnvUnset).outcome = .ok sEnvUnset.catalog.node.default :=
  ⟨pinned_precedence.1 sPinned projPinned ⟨6, 5, 0⟩ rfl rfl rfl rfl rfl,
   pinned_precedence.2 sEnvUnset rfl rfl⟩

/-- C7 counterexample: in a session with no pin and no user-global default
but with NOTION_NODE_VERSION set to "1.0.0", the active-version query
returns 1.0.0 rather than the absent result. -/
theorem unset_default_cex :
    sEnvNoDefault.in_pinned_project = false ∧
    sEnvNoDefault.catalog.node.default = none ∧
    (Session.current_node sEnvNoDefault).outcome = .ok (some ⟨1, 0, 0⟩) ∧
    (Session.current_node sEnvNoDefault).outcome ≠ .ok none := by
  refine ⟨rfl, rfl, by decide, by decide⟩

/-- C7 (amended): with no pin, no user-global default and the
NOTION_NODE_VERSION variable absent, the Node query returns the absent
result successfully; with no yarn pin and no yarn default, the Yarn query
returns the absent result successfully — neither fails. -/
theorem unset_default_none :
    (∀ s : Session, s.in_pinned_project = false → s.nodeEnvVar = .notPresent →
      s.catalog.node.default = none →
      Session.current_node s = ⟨[], s, .ok none⟩) ∧
    (∀ s : Session, s.yarn_pin = none → s.catalog.yarn.default = none →
      Session.current_yarn s = ⟨[], s, .ok none⟩) := by
  constructor
  · intro s hp he hdef
    simp [Session.current_node, hp, Session.user_node, he, hdef]
  · intro s hpin hdef
    rcases hp : s.project with _ | p
    · simp [Session.current_yarn, Session.in_pinned_project, hp, hdef]
    · have hy : p.manifest.yarn = none := by
        simpa [Session.yarn_pin, hp] using hpin
      by_cases hpin2 : s.in_pinned_project = true
      · simp [Session.current_yarn, hpin2, hp, hy, hdef]
      · rw [Bool.not_eq_true] at hpin2
        simp [Session.current_yarn, hpin2, hdef]

/-- Witness for the amended C7: with everything unset both queries return
the absent result successfully. -/
theorem unset_default_none_witness :
    Session.current_node sAllUnset = ⟨[], sAllUnset, .ok none⟩ ∧
    Session.current_yarn sAllUnset = ⟨[], sAllUnset, .ok none⟩ :=
  ⟨unset_default_none.1 sAllUnset rfl rfl rfl,
   unset_default_none.2 sAllUnset rfl rfl⟩

/-- C10: a manifest with a toolchain section always carries a Node pin (the
pin is mandatory in the data type), so inside a pinned project the unwraps
in the active-version query cannot fire: the query never produces the
panic outcome. -/
theorem toolchain_node_mandatory :
    (∀ m : Manifest, m.has_toolchain = true → (Manifest.node m).isSome = true) ∧
    (∀ s : Session, s.in_pinned_project = true →
      (Session.current_node s).outcome ≠ .error .panicked) := by
  constructor
  · intro m hm
    rcases hmt : m.toolchain with _ | t
    · rw [Manifest.has_toolchain, hmt] at hm
      simp at hm
    · simp [Manifest.node, hmt]
  · intro s hp
    rcases hproj : s.project with _ | p
    · simp [Session.in_pinned_project, hproj] at hp
    · have hts : p.manifest.toolchain.isSome = true := by
        have := hp
        simp [Session.in_pinned_project, hproj, Project.is_pinned,
              Manifest.has_toolchain] at this
        exact this
      rcases hmt : p.manifest.toolchain with _ | t
      · rw [hmt] at hts
        simp at hts
      · have hn : p.manifest.node = some t.node := by
          rw [Manifest.node, hmt]
          rfl
        by_cases hct : s.catalog.node.contains t.node = true
        · simp [Session.current_node, hp, hproj, hn, hct]
        · rw [Bool.not_eq_true] at hct
          have hnp := fetch_node_no_panic s.catalog t.node s.world
          rcases hro : (Catalog.fetch_node s.catalog (.exact t.node) s.world).outcome
            with e | f
          · rw [hro] at hnp
            simp [Session.current_node, hp, hproj, hn, hct, hro]
            intro hcontra
            exact hnp (by rw [hcontra])
          · simp [Session.current_node, hp, hproj, hn, hct, hro]

/-- Witness for C10: the manifest of the pinned fixture project has a Node
pin, and the query in that project does not panic. -/
theorem toolchain_node_mandatory_witness :
    (Manifest.node projPinned.manifest).isSome = true ∧
    (Session.current_node sPinned).outcome ≠ .error .panicked :=
  ⟨toolchain_node_mandatory.1 projPinned.manifest rfl,
   toolchain_node_mandatory.2 sPinned rfl⟩

/-- Witness for C1: a fetch for the already-installed 6.5.0 returns
`Already` with no effects, and the second of two pipeline runs returns
`Already`. -/
theorem fetch_idempotent_witness :
    NodeDistro.fetch ⟨⟨some 100, 50, true⟩, v650⟩ ⟨[v650], none⟩ wAllOk =
      ⟨[], wAllOk, ⟨[v650], none⟩, .ok (.Already v650)⟩ ∧
    (Catalog.fetch_node (Catalog.fetch_node catEmpty (.exact v650) wAllOk).catalog
      (.exact v650) (Catalog.fetch_node catEmpty (.exact v650) wAllOk).world).outcome =
      .ok (.Already v650) :=
  ⟨fetch_idempotent.1 ⟨⟨some 100, 50, true⟩, v650⟩ ⟨[v650], none⟩ wAllOk (by decide),
   (fetch_idempotent.2 v650 catEmpty wAllOk rfl rfl rfl).2.2⟩

/-- Witness for C2: with a failing rename the fetch errors, the collection
is unchanged and the canonical install path stays empty. -/
theorem atomic_install_rename_fail_witness :
    NodeDistro.fetch ⟨⟨some 100, 50, true⟩, v650⟩ ⟨[], none⟩ wRenameFail =
      ⟨[.unpack, .rename], { wRenameFail with tmpDir := some .fullTree }, ⟨[], none⟩,
       .error .unknownErr⟩ ∧
    (Catalog.fetch_node catEmpty (.exact v650) wRenameFail).catalog = catEmpty :=
  ⟨atomic_install_rename_fail.1 ⟨⟨some 100, 50, true⟩, v650⟩ ⟨[], none⟩ wRenameFail
      (by decide) rfl rfl,
   (atomic_install_rename_fail.2 v650 catEmpty wRenameFail (by decide) rfl rfl).2.1⟩
